import Mathlib

/-!
Shallow embedding of `fetch_test_deps.py`, the dependency-bootstrap script of
the fastgltf repository.  The script's only nontrivial routine is
`download_zip_and_extract(url, output_folder, name)`, which downloads a ZIP
archive to `<output_folder><name>.zip`, extracts it when
`<output_folder><name>` is not yet a directory, renames the archive's wrapping
folder when `name.lower()` occurs in the first entry path, and finally removes
the temporary archive.  `main()` bootstraps two destination roots and iterates
two fixed registries, catching only `urllib.error.HTTPError`.

The filesystem is modelled as the set of existing directory paths and file
paths (contents are irrelevant to every property considered here).  Paths are
plain strings, exactly as the Python code concatenates them; a trailing `/`
is stripped when a path is used by a filesystem primitive, mirroring POSIX
tolerance of trailing slashes on directory operations.  Fallible filesystem
operations and the network are modelled with explicit error values, and each
fetch cycle additionally records the observable actions it performed
(download, extraction, rename, removal) so that claims about "no network
work" or "no extraction" can be stated directly.
-/

namespace FetchDeps

/-- Boolean membership of a string in a list of strings. -/
def memS (x : String) : List String → Bool
  | [] => false
  | a :: l => x == a || memS x l

/-- The characters of the concatenation of two strings. -/
theorem toList_append (a b : String) : (a ++ b).toList = a.toList ++ b.toList := by
  cases a; cases b; rfl

/-- Remove all trailing `/` characters from a character list. -/
def dropTrailingSlashes (l : List Char) : List Char :=
  (l.reverse.dropWhile (fun ch => ch == '/')).reverse

/-- Normalise a path by stripping trailing slashes, as the POSIX filesystem
calls underlying `os.path.isdir`, `os.mkdir`, `os.rename` and `os.remove`
treat `p/` and `p` alike for directories. -/
def normPath (p : String) : String :=
  String.mk (dropTrailingSlashes p.toList)

/-- Accumulator-based splitting of a character list at `/` separators,
dropping empty components. -/
def splitPathAux : List Char → List Char → List String
  | [], acc => if acc.isEmpty then [] else [String.mk acc.reverse]
  | c :: rest, acc =>
    if c = '/' then
      if acc.isEmpty then splitPathAux rest []
      else String.mk acc.reverse :: splitPathAux rest []
    else splitPathAux rest (c :: acc)

/-- Split a path into its nonempty `/`-separated components. -/
def splitPath (p : String) : List String :=
  splitPathAux p.toList []

/-- ASCII lower-casing of a string, as Python's `str.lower` acts on the
ASCII dependency names and entry paths used here. -/
def strLower (s : String) : String :=
  String.mk (s.toList.map Char.toLower)

/-- Join path components with `/` separators. -/
def joinComps : List String → String
  | [] => ""
  | [a] => a
  | a :: rest => a ++ "/" ++ joinComps rest

/-- The parent directory of a normalised path (empty for a single component,
meaning the current working directory). -/
def parentDir (p : String) : String :=
  joinComps (splitPath p).dropLast

/-- Whether a zip entry path denotes a directory (ends with a slash). -/
def endsSlash (e : String) : Bool :=
  e.toList.getLast? == some '/'

/-- Python's substring test `needle in hay` on strings. -/
def pyIn (needle hay : String) : Bool :=
  hay.toList.tails.any (fun t => needle.toList.isPrefixOf t)

/-- How `os.rename src dst` transforms an existing path: the renamed node
itself becomes `dst`, every path strictly below it is re-rooted under `dst`,
and unrelated paths are untouched. -/
def remapPath (s t : String) (d : String) : String :=
  if d = s then t
  else if (s.toList ++ ['/']).isPrefixOf d.toList then
    String.mk (t.toList ++ d.toList.drop s.toList.length)
  else d

/-- Errors a fetch cycle or the driver can raise, mirroring the Python
exception classes that can escape `download_zip_and_extract`. -/
inductive PyError where
  /-- `urllib.error.HTTPError`: the server answered with an error status. -/
  | httpError
  /-- `urllib.error.URLError` that is not an `HTTPError` (connection or DNS
  failure). -/
  | urlError
  /-- `zipfile.BadZipFile`: the downloaded bytes are not a valid ZIP. -/
  | badZipFile
  /-- `OSError` from a filesystem primitive. -/
  | osError (msg : String)
deriving Repr, DecidableEq

/-- A filesystem state: which directory paths and which file paths exist.
File contents play no role in any property of the script. -/
structure FS where
  dirs : List String
  files : List String
deriving Repr, DecidableEq

/-- The state `os.path.isdir p` observes. -/
def FS.isDir (fs : FS) (p : String) : Bool :=
  memS (normPath p) fs.dirs

/-- The state `os.path.isfile p` observes. -/
def FS.isFile (fs : FS) (p : String) : Bool :=
  memS (normPath p) fs.files

/-- Create (or overwrite) a file at `p`, as `urllib.request.urlretrieve`
does with its destination. -/
def FS.createFile (fs : FS) (p : String) : FS :=
  let q := normPath p
  if memS q fs.files then fs else { fs with files := q :: fs.files }

/-- Record a directory at `p` if not already present (used by extraction). -/
def FS.addDir (fs : FS) (p : String) : FS :=
  if memS p fs.dirs then fs else { fs with dirs := p :: fs.dirs }

/-- The effect of `os.remove p`: fails when no such file exists, otherwise
deletes the path from the file table. -/
def FS.removeFile (fs : FS) (p : String) : Except PyError FS :=
  let q := normPath p
  if memS q fs.files then
    .ok { fs with files := fs.files.filter (fun x => x != q) }
  else .error (.osError "No such file or directory")

/-- The effect of `os.mkdir p`: fails when the path already exists or the
parent directory is missing, otherwise records the new directory. -/
def FS.mkdir (fs : FS) (p : String) : Except PyError FS :=
  let q := normPath p
  if memS q fs.dirs || memS q fs.files then .error (.osError "File exists")
  else if parentDir q == "" || memS (parentDir q) fs.dirs then
    .ok { fs with dirs := q :: fs.dirs }
  else .error (.osError "No such file or directory")

/-- The effect of `os.rename src dst`: fails when the source is missing or
the destination already exists, otherwise moves the node and everything
below it. -/
def FS.rename (fs : FS) (src dst : String) : Except PyError FS :=
  let s := normPath src
  let t := normPath dst
  if memS t fs.dirs || memS t fs.files then .error (.osError "File exists")
  else if memS s fs.dirs || memS s fs.files then
    .ok ⟨fs.dirs.map (remapPath s t), fs.files.map (remapPath s t)⟩
  else .error (.osError "No such file or directory")

/-- Create the chain of directories for the successive nonempty prefixes of
`comps` underneath `folder` (with `folder` literally prepended, as the Python
code concatenates `output_folder` in front of entry names). -/
def mkAncestors (folder : String) (fs : FS) : List String → FS
  | [] => fs
  | c0 :: rest => mkAncestors (folder ++ c0 ++ "/") (fs.addDir (folder ++ c0)) rest

/-- Write one zip entry below `folder`, creating intermediate directories as
`ZipFile.extractall` does: a path ending in `/` is a directory entry, any
other path is a file entry. -/
def extractEntry (folder : String) (fs : FS) (e : String) : FS :=
  match splitPath e with
  | [] => fs
  | comps =>
    if endsSlash e then mkAncestors folder fs comps
    else (mkAncestors folder fs comps.dropLast).createFile (folder ++ joinComps comps)

/-- The effect of `zip_ref.extractall(output_folder)` for an archive whose
entry list is `names`. -/
def extractAll (folder : String) (names : List String) (fs : FS) : FS :=
  names.foldl (extractEntry folder) fs

/-- An archive, reduced to the data the script reads: its entry list
(`zip_ref.namelist()`). -/
structure ZipArchive where
  names : List String
deriving Repr, DecidableEq

/-- The outcome of `urllib.request.urlretrieve` on one URL: an HTTP error
status, another network failure, or retrieved bytes, which either parse as a
ZIP archive or do not (`none` makes `zipfile.ZipFile` raise `BadZipFile`). -/
inductive FetchResult where
  | httpError
  | urlError
  | ok (content : Option ZipArchive)
deriving Repr, DecidableEq

/-- The remote world: what downloading each URL yields. -/
abbrev Net := String → FetchResult

/-- Observable actions of one fetch cycle. -/
inductive Event where
  | download (url : String)
  | extract (folder : String)
  | rename (src dst : String)
  | remove (path : String)
deriving Repr, DecidableEq

/-- Result of one fetch cycle: the final filesystem, the actions performed,
and the exception escaping the call, if any. -/
structure CycleResult where
  fs : FS
  events : List Event
  error : Option PyError
deriving Repr, DecidableEq

/-- Shallow embedding of `download_zip_and_extract(url, output_folder, name)`
from `fetch_test_deps.py`, lines 21-35, followed line by line:

* `output = f'{output_folder}{name}'`;
* `urllib.request.urlretrieve(url, f'{output}.zip')` downloads the archive
  (raising on network failure before any local file is created);
* `zipfile.ZipFile(file_path, "r")` raises `BadZipFile` on unparseable bytes;
* an empty `namelist()` returns early, skipping `os.remove`;
* when `output` is not already a directory, `extractall(output_folder)` runs
  and, if `name.lower() in names[0].lower()`, the path
  `f'{output_folder}{names[0]}'` is renamed to `output`;
* finally `os.remove(file_path)` deletes the archive. -/
def download_zip_and_extract (net : Net) (url output_folder name : String) (fs : FS) :
    CycleResult :=
  let output := output_folder ++ name
  let filePath := output ++ ".zip"
  match net url with
  | .httpError => ⟨fs, [], some .httpError⟩
  | .urlError => ⟨fs, [], some .urlError⟩
  | .ok content =>
    let fs1 := fs.createFile filePath
    match content with
    | none => ⟨fs1, [.download url], some .badZipFile⟩
    | some zip =>
      if zip.names.length = 0 then
        ⟨fs1, [.download url], none⟩
      else if fs1.isDir output then
        match fs1.removeFile filePath with
        | .ok fs3 => ⟨fs3, [.download url, .remove filePath], none⟩
        | .error e => ⟨fs1, [.download url], some e⟩
      else
        let fs2 := extractAll output_folder zip.names fs1
        if pyIn (strLower name) (strLower zip.names.headI) then
          match fs2.rename (output_folder ++ zip.names.headI) output with
          | .error e => ⟨fs2, [.download url, .extract output_folder], some e⟩
          | .ok fs3 =>
            match fs3.removeFile filePath with
            | .ok fs4 =>
              ⟨fs4, [.download url, .extract output_folder,
                     .rename (output_folder ++ zip.names.headI) output,
                     .remove filePath], none⟩
            | .error e =>
              ⟨fs3, [.download url, .extract output_folder,
                     .rename (output_folder ++ zip.names.headI) output], some e⟩
        else
          match fs2.removeFile filePath with
          | .ok fs3 =>
            ⟨fs3, [.download url, .extract output_folder, .remove filePath], none⟩
          | .error e => ⟨fs2, [.download url, .extract output_folder], some e⟩

/-- URL of the glfw dependency, from the registry at the top of the script. -/
def glfw_url : String :=
  "https://github.com/glfw/glfw/releases/download/3.3.8/glfw-3.3.8.zip"

/-- URL of the glm dependency. -/
def glm_url : String :=
  "https://github.com/g-truc/glm/releases/download/0.9.9.8/glm-0.9.9.8.zip"

/-- URL of the catch2 dependency. -/
def catch2_url : String :=
  "https://github.com/catchorg/Catch2/archive/refs/tags/v3.1.0.zip"

/-- The `example_deps_urls` registry (insertion order of the Python dict). -/
def example_deps_urls : List (String × String) :=
  [("glfw", glfw_url), ("glm", glm_url)]

/-- The `test_deps_urls` registry. -/
def test_deps_urls : List (String × String) :=
  [("catch2", catch2_url)]

/-- Destination root of the example dependencies. -/
def example_deps_folder : String := "examples/deps/"

/-- Destination root of the test dependencies. -/
def test_deps_folder : String := "tests/deps/"

/-- Driver state: filesystem, lines printed to stdout and stderr, and the
uncaught exception terminating the run, if any. -/
structure DriverState where
  fs : FS
  out : List String
  err : List String
  fatal : Option PyError
deriving Repr, DecidableEq

/-- One `for name, url in deps.items():` loop of `main`, with its
`try/except urllib.error.HTTPError` body.  `stopOnHTTP` is `true` for the
example-dependency loop, which executes `break` after reporting an
`HTTPError`, and `false` for the test-dependency loop, which continues with
the next entry.  Any other exception is uncaught: it becomes `fatal` and no
further entry of any group runs. -/
def processEntries (net : Net) (folder : String) (stopOnHTTP : Bool) :
    List (String × String) → DriverState → DriverState
  | [], st => st
  | (name, url) :: rest, st =>
    if st.fatal.isSome then st
    else
      let r := download_zip_and_extract net url folder name st.fs
      match r.error with
      | none =>
        processEntries net folder stopOnHTTP rest
          { st with fs := r.fs, out := st.out ++ [s!"Finished downloading {name}"] }
      | some .httpError =>
        let st1 := { st with fs := r.fs, err := st.err ++ [s!"Could not download {url}."] }
        if stopOnHTTP then st1 else processEntries net folder stopOnHTTP rest st1
      | some e => { st with fs := r.fs, fatal := some e }

/-- Shallow embedding of `main()`: bootstrap the two destination roots with
`os.mkdir` when absent, then run the example loop (which breaks on
`HTTPError`) followed by the test loop (which continues past `HTTPError`).
An exception from `os.mkdir` is uncaught and ends the run immediately. -/
def main (net : Net) (fs : FS) : DriverState :=
  match (if fs.isDir example_deps_folder then .ok fs else fs.mkdir example_deps_folder :
      Except PyError FS) with
  | .error e => ⟨fs, [], [], some e⟩
  | .ok fs1 =>
    match (if fs1.isDir test_deps_folder then .ok fs1 else fs1.mkdir test_deps_folder :
        Except PyError FS) with
    | .error e => ⟨fs1, [], [], some e⟩
    | .ok fs2 =>
      processEntries net test_deps_folder false test_deps_urls
        (processEntries net example_deps_folder true example_deps_urls ⟨fs2, [], [], none⟩)

/-- The leading component of an entry path (what the spec calls the path's
first `/`-separated component). -/
def leadingComp (p : String) : String :=
  (splitPath p).headI

/-- Claim C1 as stated: when the target directory already exists, the fetch
cycle performs no network download and no extraction. -/
def C1_asStated : Prop :=
  ∀ (net : Net) (url folder name : String) (fs : FS),
    fs.isDir (folder ++ name) = true →
    (∀ u, Event.download u ∉ (download_zip_and_extract net url folder name fs).events) ∧
    (∀ f, Event.extract f ∉ (download_zip_and_extract net url folder name fs).events)

/-- Claim C2 as stated: every cycle that completes the download step leaves
no `<destinationRoot>/<name>.zip` behind, regardless of outcome (including an
empty entry list and a ZIP that cannot be parsed). -/
def C2_asStated : Prop :=
  ∀ (net : Net) (url folder name : String) (content : Option ZipArchive) (fs : FS),
    net url = FetchResult.ok content →
    (download_zip_and_extract net url folder name fs).fs.isFile
      ((folder ++ name) ++ ".zip") = false

/-- Claim C3 as stated: for a non-empty archive, when the leading component
of the first entry path case-insensitively contains `name`, extraction ends
with the directory renamed to exactly `<destinationRoot>/<name>`; when the
leading component does not contain `name`, no rename occurs and the
directory keeps the archive's internal folder name. -/
def C3_asStated : Prop :=
  ∀ (net : Net) (url folder name : String) (z : ZipArchive) (fs : FS),
    net url = FetchResult.ok (some z) → z.names ≠ [] →
    fs.isDir (folder ++ name) = false →
    (pyIn (strLower name) (strLower (leadingComp z.names.headI)) = true →
      (download_zip_and_extract net url folder name fs).fs.isDir (folder ++ name) = true) ∧
    (pyIn (strLower name) (strLower (leadingComp z.names.headI)) = false →
      (∀ a b, Event.rename a b ∉ (download_zip_and_extract net url folder name fs).events) ∧
      (download_zip_and_extract net url folder name fs).fs.isDir
        (folder ++ leadingComp z.names.headI) = true)

/-- Claim C4 as stated: an entry whose download fails with an HTTP error
status is reported on the error stream and the driver continues with the
remaining registry entries, independent of the group; so if glfw's download
yields an HTTP error while glm's succeeds, glm's completion notice is still
printed. -/
def C4_asStated : Prop :=
  ∀ (net : Net) (fs : FS),
    net glfw_url = FetchResult.httpError →
    net glm_url = FetchResult.ok (some ⟨["glm-0.9.9.8/"]⟩) →
    s!"Could not download {glfw_url}." ∈ (main net fs).err ∧
    "Finished downloading glm" ∈ (main net fs).out

/-- A typical glfw release archive: a wrapping folder plus one file. -/
def zipGlfw : ZipArchive := ⟨["glfw-3.3.8/", "glfw-3.3.8/README.md"]⟩

/-- A network where every URL serves `zipGlfw`. -/
def netOkGlfw : Net := fun _ => .ok (some zipGlfw)

/-- A filesystem holding only the two repository roots. -/
def fsRoots : FS := ⟨["examples", "tests"], []⟩

/-- A filesystem where the examples destination root exists. -/
def fsDeps : FS := ⟨["examples/deps"], []⟩

/-- A filesystem where the glfw target directory already exists. -/
def fsDepsGlfw : FS := ⟨["examples/deps", "examples/deps/glfw"], []⟩

/-- A network serving an archive with an empty entry list. -/
def netEmptyZip : Net := fun _ => .ok (some ⟨[]⟩)

/-- A network serving bytes that are not a valid ZIP. -/
def netBadZip : Net := fun _ => .ok none

/-- A network answering every URL with an HTTP error status. -/
def netHttpErr : Net := fun _ => .httpError

/-- A network failing every URL with a non-HTTP network error. -/
def netUrlErr : Net := fun _ => .urlError

/-- A network serving an archive whose first entry is a file inside a folder
whose name does not contain the dependency name. -/
def netBar : Net := fun _ => .ok (some ⟨["bar-1.0/glfw.txt"]⟩)

/-- A network where glfw's URL fails with an HTTP error and every other URL
serves a small wrapped archive. -/
def netGlfwDown : Net := fun u =>
  if u = glfw_url then .httpError else .ok (some ⟨["glm-0.9.9.8/"]⟩)

/-! ## Helper lemmas about the filesystem model -/

theorem memS_cons (x a : String) (l : List String) :
    memS x (a :: l) = (x == a || memS x l) := rfl

theorem memS_filter_self (q : String) (l : List String) :
    memS q (l.filter (fun x => x != q)) = false := by
  induction l with
  | nil => rfl
  | cons a l ih =>
    by_cases h : a = q
    · subst h
      simp [List.filter, ih]
    · simp only [List.filter]
      have hb : (a != q) = true := by simp [bne_iff_ne, h]
      rw [hb]
      simp only [memS_cons, ih]
      have : (q == a) = false := by simp [beq_eq_false_iff_ne]; exact fun e => h e.symm
      simp [this]

theorem filter_ne_of_not_mem (q : String) (l : List String) (h : memS q l = false) :
    l.filter (fun x => x != q) = l := by
  induction l with
  | nil => rfl
  | cons a l ih =>
    rw [memS_cons] at h
    have h1 : (q == a) = false := by
      cases hqa : q == a <;> simp [hqa] at h ⊢
    have h2 : memS q l = false := by
      cases hm : memS q l <;> simp [hm, h1] at h ⊢
    have hne : (a != q) = true := by
      simp only [bne_iff_ne]
      intro e
      rw [e] at h1
      simp at h1
    simp [List.filter, hne, ih h2]

theorem memS_map (g : String → String) (x : String) (l : List String)
    (h : memS x l = true) : memS (g x) (l.map g) = true := by
  induction l with
  | nil => simp [memS] at h
  | cons a l ih =>
    rw [memS_cons] at h
    cases hxa : x == a with
    | true =>
      have : x = a := by simpa using hxa
      subst this
      simp [List.map, memS_cons]
    | false =>
      rw [hxa] at h
      simp only [Bool.false_or] at h
      simp [List.map, memS_cons, ih h]

theorem remapPath_src (s t : String) : remapPath s t s = t := by
  simp [remapPath]

theorem remapPath_ne_src (s t d : String) (hts : t ≠ s)
    (hpre : (t.toList ++ ['/']).isPrefixOf s.toList = false) :
    remapPath s t d ≠ s := by
  unfold remapPath
  by_cases h1 : d = s
  · simp [h1, hts]
  · rw [if_neg h1]
    by_cases h2 : (s.toList ++ ['/']).isPrefixOf d.toList = true
    · rw [if_pos h2]
      intro heq
      have hp : (s.toList ++ ['/']) <+: d.toList := by
        rw [← List.isPrefixOf_iff_prefix]
        exact h2
      obtain ⟨u, hu⟩ := hp
      have hdrop : d.toList.drop s.toList.length = '/' :: u := by
        rw [← hu]
        have : s.toList ++ ['/'] ++ u = s.toList ++ ('/' :: u) := by simp
        rw [this, List.drop_left]
      rw [hdrop] at heq
      have hlist : t.toList ++ '/' :: u = s.toList := by
        have := congrArg String.toList heq
        simpa using this
      have : (t.toList ++ ['/']).isPrefixOf s.toList = true := by
        rw [ List.isPrefixOf_iff_prefix, ← hlist]
        have : t.toList ++ '/' :: u = (t.toList ++ ['/']) ++ u := by simp
        rw [this]
        exact List.prefix_append _ _
      rw [this] at hpre
      exact Bool.true_eq_false.mp hpre
    · rw [if_neg h2]
      exact h1

theorem memS_map_remap_ne (s t : String) (l : List String) (hts : t ≠ s)
    (hpre : (t.toList ++ ['/']).isPrefixOf s.toList = false) :
    memS s (l.map (remapPath s t)) = false := by
  induction l with
  | nil => rfl
  | cons a l ih =>
    simp only [List.map, memS_cons, ih, Bool.or_false]
    have := remapPath_ne_src s t a hts hpre
    simp [beq_eq_false_iff_ne]
    exact fun e => this e.symm

theorem createFile_dirs (fs : FS) (p : String) : (fs.createFile p).dirs = fs.dirs := by
  unfold FS.createFile
  dsimp only
  split <;> rfl

theorem isDir_createFile (fs : FS) (p q : String) :
    (fs.createFile p).isDir q = fs.isDir q := by
  unfold FS.isDir
  rw [createFile_dirs]

theorem memS_createFile_self (fs : FS) (p : String) :
    memS (normPath p) (fs.createFile p).files = true := by
  unfold FS.createFile
  dsimp only
  split
  next h => exact h
  next h => simp [memS_cons]

theorem memS_createFile (fs : FS) (p x : String) (h : memS x fs.files = true) :
    memS x (fs.createFile p).files = true := by
  unfold FS.createFile
  dsimp only
  split
  · exact h
  · simp [memS_cons, h]

theorem createFile_files_of_not_mem (fs : FS) (p : String)
    (h : memS (normPath p) fs.files = false) :
    (fs.createFile p).files = normPath p :: fs.files := by
  unfold FS.createFile
  dsimp only
  rw [h]
  simp

theorem removeFile_eq_ok (fs : FS) (p : String)
    (h : memS (normPath p) fs.files = true) :
    fs.removeFile p = .ok ⟨fs.dirs, fs.files.filter (fun x => x != normPath p)⟩ := by
  unfold FS.removeFile
  dsimp only
  rw [h]
  rfl

theorem create_then_remove (fs : FS) (p : String) (h : memS (normPath p) fs.files = false) :
    (fs.createFile p).removeFile p = .ok fs := by
  rw [removeFile_eq_ok _ _ (memS_createFile_self fs p), createFile_dirs,
    createFile_files_of_not_mem fs p h]
  have hq : ((normPath p) != (normPath p)) = false := by simp
  have : (normPath p :: fs.files).filter (fun x => x != normPath p) = fs.files := by
    simp only [List.filter, hq]
    exact filter_ne_of_not_mem _ _ h
  rw [this]

theorem memS_addDir_self (fs : FS) (p : String) : memS p (fs.addDir p).dirs = true := by
  unfold FS.addDir
  split
  next h => exact h
  next h => simp [memS_cons]

theorem memS_addDir (fs : FS) (p x : String) (h : memS x fs.dirs = true) :
    memS x (fs.addDir p).dirs = true := by
  unfold FS.addDir
  split
  · exact h
  · simp [memS_cons, h]

theorem addDir_files (fs : FS) (p : String) : (fs.addDir p).files = fs.files := by
  unfold FS.addDir
  split <;> rfl

theorem mkAncestors_files (comps : List String) :
    ∀ (folder : String) (fs : FS), (mkAncestors folder fs comps).files = fs.files := by
  induction comps with
  | nil => intro folder fs; rfl
  | cons c0 rest ih =>
    intro folder fs
    simp only [mkAncestors, ih, addDir_files]

theorem mkAncestors_dirs_mem (comps : List String) :
    ∀ (folder : String) (fs : FS) (x : String), memS x fs.dirs = true →
      memS x (mkAncestors folder fs comps).dirs = true := by
  induction comps with
  | nil => intro folder fs x h; exact h
  | cons c0 rest ih =>
    intro folder fs x h
    exact ih _ _ _ (memS_addDir _ _ _ h)

theorem extractEntry_dirs_mem (folder : String) (fs : FS) (e x : String)
    (h : memS x fs.dirs = true) : memS x (extractEntry folder fs e).dirs = true := by
  unfold extractEntry
  split
  · exact h
  · split
    · exact mkAncestors_dirs_mem _ _ _ _ h
    · rw [createFile_dirs]
      exact mkAncestors_dirs_mem _ _ _ _ h

theorem extractEntry_files_mem (folder : String) (fs : FS) (e x : String)
    (h : memS x fs.files = true) : memS x (extractEntry folder fs e).files = true := by
  unfold extractEntry
  split
  · exact h
  · split
    · rw [mkAncestors_files]
      exact h
    · apply memS_createFile
      rw [mkAncestors_files]
      exact h

theorem extractAll_dirs_mem (names : List String) :
    ∀ (folder : String) (fs : FS) (x : String), memS x fs.dirs = true →
      memS x (extractAll folder names fs).dirs = true := by
  induction names with
  | nil => intro folder fs x h; exact h
  | cons e rest ih =>
    intro folder fs x h
    exact ih _ _ _ (extractEntry_dirs_mem _ _ _ _ h)

theorem extractAll_files_mem (names : List String) :
    ∀ (folder : String) (fs : FS) (x : String), memS x fs.files = true →
      memS x (extractAll folder names fs).files = true := by
  induction names with
  | nil => intro folder fs x h; exact h
  | cons e rest ih =>
    intro folder fs x h
    exact ih _ _ _ (extractEntry_files_mem _ _ _ _ h)

theorem endsSlash_append_slash (x : String) : endsSlash (x ++ "/") = true := by
  unfold endsSlash
  rw [toList_append]
  have : ("/" : String).toList = ['/'] := rfl
  rw [this, List.getLast?_concat]
  rfl

theorem normPath_append_slash (x : String) : normPath (x ++ "/") = normPath x := by
  unfold normPath dropTrailingSlashes
  rw [toList_append]
  have h1 : ("/" : String).toList = ['/'] := rfl
  rw [h1, List.reverse_append]
  simp [List.dropWhile]

theorem headI_cons (a : String) (l : List String) : (a :: l).headI = a := rfl

theorem cycle_httpError (net : Net) (url folder name : String) (fs : FS)
    (h : net url = FetchResult.httpError) :
    download_zip_and_extract net url folder name fs = ⟨fs, [], some .httpError⟩ := by
  unfold download_zip_and_extract
  rw [h]

theorem cycle_urlError (net : Net) (url folder name : String) (fs : FS)
    (h : net url = FetchResult.urlError) :
    download_zip_and_extract net url folder name fs = ⟨fs, [], some .urlError⟩ := by
  unfold download_zip_and_extract
  rw [h]

theorem removeFile_ok_isFile (fs : FS) (p : String) (fs2 : FS)
    (h : fs.removeFile p = .ok fs2) : fs2.isFile p = false := by
  unfold FS.removeFile at h
  dsimp only at h
  by_cases hm : memS (normPath p) fs.files = true
  · rw [if_pos hm] at h
    injection h with h2
    rw [← h2]
    unfold FS.isFile
    exact memS_filter_self _ _
  · rw [if_neg hm] at h
    exact absurd h (by simp)

theorem cycle_skip_eq (net : Net) (url folder name : String) (z : ZipArchive) (fs : FS)
    (hnet : net url = FetchResult.ok (some z)) (hz : z.names ≠ [])
    (htd : fs.isDir (folder ++ name) = true) :
    download_zip_and_extract net url folder name fs =
      ⟨⟨fs.dirs, (fs.createFile ((folder ++ name) ++ ".zip")).files.filter
          (fun x => x != normPath ((folder ++ name) ++ ".zip"))⟩,
       [.download url, .remove ((folder ++ name) ++ ".zip")], none⟩ := by
  unfold download_zip_and_extract
  rw [hnet]
  dsimp only
  have hlen : ¬(z.names.length = 0) := by
    simpa [List.length_eq_zero] using hz
  rw [if_neg hlen]
  have hdir : (fs.createFile ((folder ++ name) ++ ".zip")).isDir (folder ++ name) = true := by
    rw [isDir_createFile]
    exact htd
  rw [if_pos hdir, removeFile_eq_ok _ _ (memS_createFile_self fs _), createFile_dirs]

/-! ## Claim theorems -/

/-- C5: a downloaded archive whose entry list is empty makes the fetch cycle
raise no error, perform no extraction and no rename (its only action is the
download), and create no `<destinationRoot>/<name>` directory (the directory
table is unchanged). -/
theorem degenerate_archive_noop (net : Net) (url folder name : String) (z : ZipArchive)
    (fs : FS) (hnet : net url = FetchResult.ok (some z)) (hz : z.names = []) :
    (download_zip_and_extract net url folder name fs).error = none ∧
    (download_zip_and_extract net url folder name fs).events = [Event.download url] ∧
    (download_zip_and_extract net url folder name fs).fs.dirs = fs.dirs := by
  unfold download_zip_and_extract
  rw [hnet]
  dsimp only
  rw [hz]
  simp [createFile_dirs]

/-- C5 witness: the degenerate-archive theorem applied to a concrete empty
archive over a concrete filesystem. -/
theorem degenerate_archive_noop_witness :
    (download_zip_and_extract netEmptyZip glfw_url "examples/deps/" "glfw" fsDeps).error
      = none ∧
    (download_zip_and_extract netEmptyZip glfw_url "examples/deps/" "glfw" fsDeps).events
      = [Event.download glfw_url] ∧
    (download_zip_and_extract netEmptyZip glfw_url "examples/deps/" "glfw" fsDeps).fs.dirs
      = fsDeps.dirs :=
  degenerate_archive_noop netEmptyZip glfw_url "examples/deps/" "glfw" ⟨[]⟩ fsDeps rfl rfl

/-- C6: when the download fails with an HTTP error status, the cycle
propagates `HTTPError` to the caller and the filesystem is exactly as
before: no `<destinationRoot>/<name>.zip` is created and the target
directory is untouched. -/
theorem networkError_is_atomic (net : Net) (url folder name : String) (fs : FS)
    (h : net url = FetchResult.httpError) :
    download_zip_and_extract net url folder name fs = ⟨fs, [], some .httpError⟩ ∧
    (download_zip_and_extract net url folder name fs).fs.isFile ((folder ++ name) ++ ".zip")
      = fs.isFile ((folder ++ name) ++ ".zip") ∧
    (download_zip_and_extract net url folder name fs).fs.isDir (folder ++ name)
      = fs.isDir (folder ++ name) := by
  have e := cycle_httpError net url folder name fs h
  exact ⟨e, by rw [e], by rw [e]⟩

/-- C6 witness: the atomicity theorem at a concrete failing download. -/
theorem networkError_is_atomic_witness :
    download_zip_and_extract netHttpErr glfw_url "examples/deps/" "glfw" fsDeps
      = ⟨fsDeps, [], some .httpError⟩ :=
  (networkError_is_atomic netHttpErr glfw_url "examples/deps/" "glfw" fsDeps rfl).1

/-- C7: when the target directory already exists and the archive is
non-empty, the cycle raises no error, performs neither extraction nor
rename (its actions are exactly the download and the archive removal), the
directory table — in particular the target directory's contents — is
unchanged, the temporary archive is deleted, and if no stale archive file
pre-existed the filesystem ends exactly as it began. -/
theorem existing_target_frame (net : Net) (url folder name : String) (z : ZipArchive)
    (fs : FS) (hnet : net url = FetchResult.ok (some z)) (hz : z.names ≠ [])
    (htd : fs.isDir (folder ++ name) = true) :
    (download_zip_and_extract net url folder name fs).error = none ∧
    (download_zip_and_extract net url folder name fs).events
      = [Event.download url, Event.remove ((folder ++ name) ++ ".zip")] ∧
    (download_zip_and_extract net url folder name fs).fs.dirs = fs.dirs ∧
    (download_zip_and_extract net url folder name fs).fs.isFile ((folder ++ name) ++ ".zip")
      = false ∧
    (fs.isFile ((folder ++ name) ++ ".zip") = false →
      (download_zip_and_extract net url folder name fs).fs = fs) := by
  have key := cycle_skip_eq net url folder name z fs hnet hz htd
  rw [key]
  refine ⟨rfl, rfl, rfl, ?_, ?_⟩
  · exact memS_filter_self _ _
  · intro hc
    unfold FS.isFile at hc
    show FS.mk fs.dirs _ = fs
    rw [createFile_files_of_not_mem fs _ hc]
    have hq : ((normPath ((folder ++ name) ++ ".zip"))
        != (normPath ((folder ++ name) ++ ".zip"))) = false := by simp
    simp only [List.filter, hq]
    rw [filter_ne_of_not_mem _ _ hc]

/-- C7 witness: the frame theorem at a concrete pre-existing target. -/
theorem existing_target_frame_witness :
    (download_zip_and_extract netOkGlfw glfw_url "examples/deps/" "glfw" fsDepsGlfw).error
      = none ∧
    (download_zip_and_extract netOkGlfw glfw_url "examples/deps/" "glfw" fsDepsGlfw).events
      = [Event.download glfw_url, Event.remove (("examples/deps/" ++ "glfw") ++ ".zip")] ∧
    (download_zip_and_extract netOkGlfw glfw_url "examples/deps/" "glfw" fsDepsGlfw).fs.dirs
      = fsDepsGlfw.dirs ∧
    (download_zip_and_extract netOkGlfw glfw_url "examples/deps/" "glfw" fsDepsGlfw).fs.isFile
      (("examples/deps/" ++ "glfw") ++ ".zip") = false ∧
    (fsDepsGlfw.isFile (("examples/deps/" ++ "glfw") ++ ".zip") = false →
      (download_zip_and_extract netOkGlfw glfw_url "examples/deps/" "glfw" fsDepsGlfw).fs
        = fsDepsGlfw) :=
  existing_target_frame netOkGlfw glfw_url "examples/deps/" "glfw" zipGlfw fsDepsGlfw rfl
    (by decide) (by decide)

/-- C9: any error of a fetch cycle other than `HTTPError` — a malformed ZIP
or a filesystem error — is not caught by the driver loop: it becomes the
run's fatal error and none of the remaining entries is processed (the result
does not depend on `rest`), in either loop policy. -/
theorem nonNetwork_error_uncaught (net : Net) (folder : String) (b : Bool)
    (name url : String) (rest : List (String × String)) (st : DriverState) (e : PyError)
    (hf : st.fatal = none)
    (herr : (download_zip_and_extract net url folder name st.fs).error = some e)
    (hne : e ≠ PyError.httpError) :
    processEntries net folder b ((name, url) :: rest) st
      = { st with fs := (download_zip_and_extract net url folder name st.fs).fs,
                  fatal := some e } := by
  unfold processEntries
  rw [hf]
  dsimp only
  rw [herr]
  cases e with
  | httpError => exact absurd rfl hne
  | urlError => rfl
  | badZipFile => rfl
  | osError m => rfl

/-- C9 witness: a bad ZIP on the first entry aborts the whole loop. -/
theorem nonNetwork_error_uncaught_witness :
    processEntries netBadZip "examples/deps/" true [("glfw", glfw_url)]
        ⟨fsDeps, [], [], none⟩
      = { (⟨fsDeps, [], [], none⟩ : DriverState) with
          fs := (download_zip_and_extract netBadZip glfw_url "examples/deps/" "glfw"
                  fsDeps).fs,
          fatal := some PyError.badZipFile } :=
  nonNetwork_error_uncaught netBadZip "examples/deps/" true "glfw" glfw_url []
    ⟨fsDeps, [], [], none⟩ PyError.badZipFile rfl (by decide) (by decide)

/-- C10: a download failure that is a `URLError` but not an `HTTPError`
(connection or DNS failure) is not caught for any entry: the driver records
it as the fatal error, the filesystem is unchanged, and no further entry is
processed, under either loop policy. -/
theorem urlError_uncaught (net : Net) (folder : String) (b : Bool) (name url : String)
    (rest : List (String × String)) (st : DriverState)
    (hf : st.fatal = none) (hnet : net url = FetchResult.urlError) :
    processEntries net folder b ((name, url) :: rest) st
      = { st with fatal := some PyError.urlError } := by
  unfold processEntries
  rw [hf]
  dsimp only
  rw [cycle_urlError net url folder name st.fs hnet]
  rfl

/-- C10 witness: a non-HTTP network failure on the first entry is fatal. -/
theorem urlError_uncaught_witness :
    processEntries netUrlErr "examples/deps/" false [("glfw", glfw_url)]
        ⟨fsDeps, [], [], none⟩
      = { (⟨fsDeps, [], [], none⟩ : DriverState) with fatal := some PyError.urlError } :=
  urlError_uncaught netUrlErr "examples/deps/" false "glfw" glfw_url []
    ⟨fsDeps, [], [], none⟩ rfl rfl

/-- C4 counterexample: the driver does not continue with the remaining
registry entries independently of the group.  With glfw's download failing
on an HTTP error and every other URL served, the example loop executes
`break`: the warning is printed but glm is never processed, so its
completion notice is missing from the output. -/
theorem C4_refuted : ¬ C4_asStated := by
  intro h
  have hc := h netGlfwDown fsRoots (by decide) (by decide)
  exact absurd hc.2 (by decide)

/-- C4 amended: on an HTTP-error download the driver prints the warning
naming the URL and the run is not terminated, but continuation is
group-dependent: the example loop (`stopOnHTTP = true`) abandons the rest of
its group, while the test loop (`stopOnHTTP = false`) continues with the
next entry. -/
theorem httpError_report_and_group_policy (net : Net) (folder name url : String)
    (rest : List (String × String)) (st : DriverState)
    (hf : st.fatal = none) (hnet : net url = FetchResult.httpError) :
    processEntries net folder true ((name, url) :: rest) st
      = { st with err := st.err ++ [s!"Could not download {url}."] } ∧
    processEntries net folder false ((name, url) :: rest) st
      = processEntries net folder false rest
          { st with err := st.err ++ [s!"Could not download {url}."] } := by
  constructor <;>
  · simp only [processEntries]
    rw [hf]
    rw [cycle_httpError net url folder name st.fs hnet]
    rfl

/-- C4 amended witness: the policy theorem at a concrete failing entry. -/
theorem httpError_report_and_group_policy_witness :
    processEntries netHttpErr example_deps_folder true example_deps_urls
        ⟨fsDeps, [], [], none⟩
      = { (⟨fsDeps, [], [], none⟩ : DriverState) with
          err := [s!"Could not download {glfw_url}."] } :=
  (httpError_report_and_group_policy netHttpErr example_deps_folder "glfw" glfw_url
    [("glm", glm_url)] ⟨fsDeps, [], [], none⟩ rfl rfl).1

/-- C8: starting from a filesystem where the two destination roots are
absent (but the repository directories `examples` and `tests` exist), `main`
creates both roots with no error before any fetch cycle begins: the state
handed to the first registry loop already contains both root directories. -/
theorem roots_created_before_fetch (net : Net) (fs : FS)
    (h1 : fs.isDir example_deps_folder = false)
    (h2 : fs.isDir test_deps_folder = false)
    (h3 : fs.isFile example_deps_folder = false)
    (h4 : fs.isFile test_deps_folder = false)
    (h5 : fs.isDir "examples" = true)
    (h6 : fs.isDir "tests" = true) :
    FS.isDir ⟨"tests/deps" :: "examples/deps" :: fs.dirs, fs.files⟩ example_deps_folder
      = true ∧
    FS.isDir ⟨"tests/deps" :: "examples/deps" :: fs.dirs, fs.files⟩ test_deps_folder
      = true ∧
    main net fs = processEntries net test_deps_folder false test_deps_urls
      (processEntries net example_deps_folder true example_deps_urls
        ⟨⟨"tests/deps" :: "examples/deps" :: fs.dirs, fs.files⟩, [], [], none⟩) := by
  unfold FS.isDir at h1 h2 h5 h6
  unfold FS.isFile at h3 h4
  have e1 : normPath example_deps_folder = "examples/deps" := by decide
  have e2 : normPath test_deps_folder = "tests/deps" := by decide
  have e3 : normPath "examples" = "examples" := by decide
  have e4 : normPath "tests" = "tests" := by decide
  rw [e1] at h1 h3
  rw [e2] at h2 h4
  rw [e3] at h5
  rw [e4] at h6
  refine ⟨?_, ?_, ?_⟩
  · unfold FS.isDir
    rw [e1]
    simp [memS_cons]
  · unfold FS.isDir
    rw [e2]
    simp [memS_cons]
  · unfold main
    have ep1 : parentDir "examples/deps" = "examples" := by decide
    have ep2 : parentDir "tests/deps" = "tests" := by decide
    have ee1 : (("examples" : String) == "") = false := by decide
    have ee2 : (("tests" : String) == "") = false := by decide
    have ed1 : (("tests/deps" : String) == "examples/deps") = false := by decide
    have hc1 : ¬(fs.isDir example_deps_folder = true) := by
      unfold FS.isDir
      rw [e1, h1]
      simp
    rw [if_neg hc1]
    unfold FS.mkdir
    dsimp only
    rw [e1]
    rw [if_neg (by rw [h1, h3]; simp)]
    rw [ep1]
    rw [if_pos (by rw [ee1, h5]; simp)]
    dsimp only
    have hc2 : ¬(FS.isDir ⟨"examples/deps" :: fs.dirs, fs.files⟩ test_deps_folder = true) := by
      unfold FS.isDir
      rw [e2]
      simp [memS_cons, ed1, h2]
    rw [if_neg hc2]
    rw [e2]
    rw [if_neg (by simp [memS_cons, ed1, h2, h4])]
    rw [ep2]
    have ed2 : (("tests" : String) == "examples/deps") = false := by decide
    rw [if_pos (by rw [ee2]; simp [memS_cons, ed2, h6])]

/-- C1 counterexample: with the target directory already present and the
network serving a normal archive, the cycle still performs the network
download, contradicting the claim that the existence check suppresses all
network work. -/
theorem C1_refuted : ¬ C1_asStated := by
  intro h
  have hc := (h netOkGlfw glfw_url "examples/deps/" "glfw" fsDepsGlfw (by decide)).1 glfw_url
  exact absurd (by decide) hc

/-- C1 amended: when the target directory already exists (as after a first
successful run) and the downloaded archive is non-empty, the cycle still
performs the network download, but no extraction and no rename; apart from
materialising and then deleting the temporary archive it changes nothing, so
a second run re-downloads but leaves the filesystem as it found it (when no
stale archive file pre-existed). -/
theorem target_exists_still_downloads (net : Net) (url folder name : String)
    (z : ZipArchive) (fs : FS) (hnet : net url = FetchResult.ok (some z))
    (hz : z.names ≠ []) (htd : fs.isDir (folder ++ name) = true) :
    Event.download url ∈ (download_zip_and_extract net url folder name fs).events ∧
    (∀ f, Event.extract f ∉ (download_zip_and_extract net url folder name fs).events) ∧
    (∀ a b, Event.rename a b ∉ (download_zip_and_extract net url folder name fs).events) ∧
    (download_zip_and_extract net url folder name fs).error = none ∧
    (fs.isFile ((folder ++ name) ++ ".zip") = false →
      (download_zip_and_extract net url folder name fs).fs = fs) := by
  have key := cycle_skip_eq net url folder name z fs hnet hz htd
  rw [key]
  refine ⟨by simp, by simp, by simp, rfl, ?_⟩
  intro hc
  unfold FS.isFile at hc
  show FS.mk fs.dirs _ = fs
  rw [createFile_files_of_not_mem fs _ hc]
  have hq : ((normPath ((folder ++ name) ++ ".zip"))
      != (normPath ((folder ++ name) ++ ".zip"))) = false := by simp
  simp only [List.filter, hq]
  rw [filter_ne_of_not_mem _ _ hc]

/-- C1 amended witness: the re-download theorem at a concrete pre-existing
target directory. -/
theorem target_exists_still_downloads_witness :
    Event.download glfw_url
      ∈ (download_zip_and_extract netOkGlfw glfw_url "examples/deps/" "glfw"
          fsDepsGlfw).events ∧
    (∀ f, Event.extract f
      ∉ (download_zip_and_extract netOkGlfw glfw_url "examples/deps/" "glfw"
          fsDepsGlfw).events) ∧
    (∀ a b, Event.rename a b
      ∉ (download_zip_and_extract netOkGlfw glfw_url "examples/deps/" "glfw"
          fsDepsGlfw).events) ∧
    (download_zip_and_extract netOkGlfw glfw_url "examples/deps/" "glfw"
        fsDepsGlfw).error = none ∧
    (fsDepsGlfw.isFile (("examples/deps/" ++ "glfw") ++ ".zip") = false →
      (download_zip_and_extract netOkGlfw glfw_url "examples/deps/" "glfw"
          fsDepsGlfw).fs = fsDepsGlfw) :=
  target_exists_still_downloads netOkGlfw glfw_url "examples/deps/" "glfw" zipGlfw
    fsDepsGlfw rfl (by decide) (by decide)

/-- C2 counterexample: an archive with an empty entry list makes the cycle
return before `os.remove`, so the temporary `.zip` file is still on disk
after the cycle completes, contradicting the unconditional cleanup claim. -/
theorem C2_refuted : ¬ C2_asStated := by
  intro h
  have hc := h netEmptyZip glfw_url "examples/deps/" "glfw" (some ⟨[]⟩) fsDeps rfl
  exact absurd hc (by decide)

/-- C2 amended: the temporary archive is deleted exactly on the paths that
reach the final `os.remove`: whenever the cycle completes without error on
an archive with a non-empty entry list no `.zip` remains, but when the entry
list is empty the early return skips the cleanup and the `.zip` file
survives the cycle (as it also does when the cycle errors after the
download). -/
theorem zip_cleanup_behavior (net : Net) (url folder name : String) (z : ZipArchive)
    (fs : FS) (hnet : net url = FetchResult.ok (some z)) :
    (z.names ≠ [] → (download_zip_and_extract net url folder name fs).error = none →
      (download_zip_and_extract net url folder name fs).fs.isFile
        ((folder ++ name) ++ ".zip") = false) ∧
    (z.names = [] →
      (download_zip_and_extract net url folder name fs).error = none ∧
      (download_zip_and_extract net url folder name fs).fs.isFile
        ((folder ++ name) ++ ".zip") = true) := by
  constructor
  · intro hz hok
    obtain ⟨r, hr⟩ : ∃ r, download_zip_and_extract net url folder name fs = r := ⟨_, rfl⟩
    rw [hr] at hok ⊢
    unfold download_zip_and_extract at hr
    rw [hnet] at hr
    dsimp only at hr
    rw [if_neg (by simpa [List.length_eq_zero] using hz)] at hr
    split at hr
    · split at hr
      next fs3 heq =>
        rw [← hr]
        exact removeFile_ok_isFile _ _ _ heq
      next e heq =>
        rw [← hr] at hok
        simp at hok
    · split at hr
      · split at hr
        next e heq =>
          rw [← hr] at hok
          simp at hok
        next fs3 heq =>
          split at hr
          next fs4 heq2 =>
            rw [← hr]
            exact removeFile_ok_isFile _ _ _ heq2
          next e heq2 =>
            rw [← hr] at hok
            simp at hok
      · split at hr
        next fs3 heq =>
          rw [← hr]
          exact removeFile_ok_isFile _ _ _ heq
        next e heq =>
          rw [← hr] at hok
          simp at hok
  · intro hz
    unfold download_zip_and_extract
    rw [hnet]
    dsimp only
    rw [hz]
    refine ⟨by simp, ?_⟩
    simp only [List.length_nil, if_pos rfl]
    unfold FS.isFile
    exact memS_createFile_self fs _

/-- C3 counterexample: for the archive `["bar-1.0/glfw.txt"]` and
`name = "glfw"`, the leading component `bar-1.0` does not contain the name,
so the claim demands no rename; but the code tests the whole first entry
path (which does contain `glfw`) and renames it, so a rename is performed. -/
theorem C3_refuted : ¬ C3_asStated := by
  intro h
  have hc := (h netBar glfw_url "examples/deps/" "glfw" ⟨["bar-1.0/glfw.txt"]⟩ fsDeps rfl
    (by decide) (by decide)).2 (by decide)
  exact absurd (by decide)
    (hc.1 ("examples/deps/" ++ "bar-1.0/glfw.txt") ("examples/deps/" ++ "glfw"))

/-- C3 amended: the code's normalisation tests `name` against the entire
first entry path (case-insensitively), not against its leading component,
and renames `output_folder ++ names[0]` to the target.  In the common layout
where the first entry is exactly the wrapping folder `c ++ "/"` — a single
path component — and the target path is unoccupied after extraction, the
cycle succeeds; when the check on the first entry passes the extracted
directory is renamed so the final directory is exactly
`<destinationRoot>/<name>` and the internal folder name is gone, and when
the check fails no rename occurs and the directory keeps the archive's
internal folder name. -/
theorem rename_uses_full_first_entry (net : Net) (url folder name c : String)
    (rest : List String) (fs : FS)
    (hnet : net url = FetchResult.ok (some ⟨(c ++ "/") :: rest⟩))
    (hsplit : splitPath (c ++ "/") = [c])
    (hnc : normPath (folder ++ c) = folder ++ c)
    (hnn : normPath (folder ++ name) = folder ++ name)
    (hzq : normPath ((folder ++ name) ++ ".zip") = (folder ++ name) ++ ".zip")
    (htd : fs.isDir (folder ++ name) = false)
    (hts : (folder ++ name) ≠ (folder ++ c))
    (hpre : ((folder ++ name).toList ++ ['/']).isPrefixOf (folder ++ c).toList = false)
    (hkeep : remapPath (folder ++ c) (folder ++ name) ((folder ++ name) ++ ".zip")
      = (folder ++ name) ++ ".zip")
    (hafterD : (extractAll folder ((c ++ "/") :: rest)
        (fs.createFile ((folder ++ name) ++ ".zip"))).isDir (folder ++ name) = false)
    (hafterF : (extractAll folder ((c ++ "/") :: rest)
        (fs.createFile ((folder ++ name) ++ ".zip"))).isFile (folder ++ name) = false) :
    (pyIn (strLower name) (strLower (c ++ "/")) = true →
      (download_zip_and_extract net url folder name fs).error = none ∧
      (download_zip_and_extract net url folder name fs).fs.isDir (folder ++ name) = true ∧
      (download_zip_and_extract net url folder name fs).fs.isDir (folder ++ c) = false ∧
      Event.rename (folder ++ (c ++ "/")) (folder ++ name)
        ∈ (download_zip_and_extract net url folder name fs).events) ∧
    (pyIn (strLower name) (strLower (c ++ "/")) = false →
      (∀ a b, Event.rename a b ∉ (download_zip_and_extract net url folder name fs).events) ∧
      (download_zip_and_extract net url folder name fs).fs.isDir (folder ++ name) = false ∧
      (download_zip_and_extract net url folder name fs).fs.isDir (folder ++ c) = true) := by
  have hsrc : normPath (folder ++ (c ++ "/")) = folder ++ c := by
    rw [← String.append_assoc, normPath_append_slash]
    exact hnc
  have hD : memS (folder ++ name) (extractAll folder ((c ++ "/") :: rest)
      (fs.createFile ((folder ++ name) ++ ".zip"))).dirs = false := by
    have hx := hafterD
    unfold FS.isDir at hx
    rw [hnn] at hx
    exact hx
  have hF : memS (folder ++ name) (extractAll folder ((c ++ "/") :: rest)
      (fs.createFile ((folder ++ name) ++ ".zip"))).files = false := by
    have hx := hafterF
    unfold FS.isFile at hx
    rw [hnn] at hx
    exact hx
  have hstep : extractEntry folder (fs.createFile ((folder ++ name) ++ ".zip")) (c ++ "/")
      = (fs.createFile ((folder ++ name) ++ ".zip")).addDir (folder ++ c) := by
    unfold extractEntry
    rw [hsplit]
    dsimp only
    rw [if_pos (endsSlash_append_slash c)]
    simp only [mkAncestors]
  have hextract : extractAll folder ((c ++ "/") :: rest)
        (fs.createFile ((folder ++ name) ++ ".zip"))
      = extractAll folder rest
        ((fs.createFile ((folder ++ name) ++ ".zip")).addDir (folder ++ c)) := by
    unfold extractAll
    rw [List.foldl_cons, hstep]
  have F2 : memS (folder ++ c) (extractAll folder ((c ++ "/") :: rest)
      (fs.createFile ((folder ++ name) ++ ".zip"))).dirs = true := by
    rw [hextract]
    exact extractAll_dirs_mem rest folder _ _ (memS_addDir_self _ _)
  have F3 : memS ((folder ++ name) ++ ".zip") (extractAll folder ((c ++ "/") :: rest)
      (fs.createFile ((folder ++ name) ++ ".zip"))).files = true := by
    apply extractAll_files_mem
    have hx := memS_createFile_self fs ((folder ++ name) ++ ".zip")
    rw [hzq] at hx
    exact hx
  have hlen : ¬(((c ++ "/") :: rest).length = 0) := by simp
  have hdcond : ¬((fs.createFile ((folder ++ name) ++ ".zip")).isDir (folder ++ name)
      = true) := by
    rw [isDir_createFile, htd]
    simp
  refine ⟨fun hin => ?_, fun hnin => ?_⟩
  · have hren : (extractAll folder ((c ++ "/") :: rest)
          (fs.createFile ((folder ++ name) ++ ".zip"))).rename
          (folder ++ (c ++ "/")) (folder ++ name)
        = .ok ⟨(extractAll folder ((c ++ "/") :: rest)
              (fs.createFile ((folder ++ name) ++ ".zip"))).dirs.map
              (remapPath (folder ++ c) (folder ++ name)),
            (extractAll folder ((c ++ "/") :: rest)
              (fs.createFile ((folder ++ name) ++ ".zip"))).files.map
              (remapPath (folder ++ c) (folder ++ name))⟩ := by
      unfold FS.rename
      dsimp only
      rw [hsrc, hnn]
      rw [if_neg (by rw [hD, hF]; simp)]
      rw [if_pos (by rw [F2]; simp)]
    have hkeepn : memS ((folder ++ name) ++ ".zip")
        ((extractAll folder ((c ++ "/") :: rest)
          (fs.createFile ((folder ++ name) ++ ".zip"))).files.map
          (remapPath (folder ++ c) (folder ++ name))) = true := by
      have hx := memS_map (remapPath (folder ++ c) (folder ++ name)) _ _ F3
      rw [hkeep] at hx
      exact hx
    have hrem : FS.removeFile
        ⟨(extractAll folder ((c ++ "/") :: rest)
            (fs.createFile ((folder ++ name) ++ ".zip"))).dirs.map
            (remapPath (folder ++ c) (folder ++ name)),
          (extractAll folder ((c ++ "/") :: rest)
            (fs.createFile ((folder ++ name) ++ ".zip"))).files.map
            (remapPath (folder ++ c) (folder ++ name))⟩
        ((folder ++ name) ++ ".zip")
        = .ok ⟨(extractAll folder ((c ++ "/") :: rest)
              (fs.createFile ((folder ++ name) ++ ".zip"))).dirs.map
              (remapPath (folder ++ c) (folder ++ name)),
            ((extractAll folder ((c ++ "/") :: rest)
              (fs.createFile ((folder ++ name) ++ ".zip"))).files.map
              (remapPath (folder ++ c) (folder ++ name))).filter
              (fun x => x != normPath ((folder ++ name) ++ ".zip"))⟩ := by
      apply removeFile_eq_ok
      rw [hzq]
      exact hkeepn
    unfold download_zip_and_extract
    rw [hnet]
    dsimp only
    rw [if_neg hlen, if_neg hdcond]
    rw [headI_cons, if_pos hin, hren]
    dsimp only
    rw [hrem]
    refine ⟨rfl, ?_, ?_, by simp⟩
    · unfold FS.isDir
      rw [hnn]
      dsimp only
      have hx := memS_map (remapPath (folder ++ c) (folder ++ name)) _ _ F2
      rw [remapPath_src] at hx
      exact hx
    · unfold FS.isDir
      rw [hnc]
      dsimp only
      exact memS_map_remap_ne (folder ++ c) (folder ++ name) _ hts hpre
  · have hrem2 : (extractAll folder ((c ++ "/") :: rest)
          (fs.createFile ((folder ++ name) ++ ".zip"))).removeFile
          ((folder ++ name) ++ ".zip")
        = .ok ⟨(extractAll folder ((c ++ "/") :: rest)
              (fs.createFile ((folder ++ name) ++ ".zip"))).dirs,
            (extractAll folder ((c ++ "/") :: rest)
              (fs.createFile ((folder ++ name) ++ ".zip"))).files.filter
              (fun x => x != normPath ((folder ++ name) ++ ".zip"))⟩ := by
      apply removeFile_eq_ok
      rw [hzq]
      exact F3
    unfold download_zip_and_extract
    rw [hnet]
    dsimp only
    rw [if_neg hlen, if_neg hdcond]
    rw [headI_cons, if_neg (by rw [hnin]; simp), hrem2]
    refine ⟨by simp, ?_, ?_⟩
    · unfold FS.isDir
      rw [hnn]
      dsimp only
      exact hD
    · unfold FS.isDir
      rw [hnc]
      dsimp only
      exact F2

/-- C3 amended witness: a glfw-style archive wrapped in `glfw-3.3.8/` is
renamed to exactly the target directory. -/
theorem rename_uses_full_first_entry_witness :
    (download_zip_and_extract netOkGlfw glfw_url "examples/deps/" "glfw" fsDeps).fs.isDir
      ("examples/deps/" ++ "glfw") = true :=
  ((rename_uses_full_first_entry netOkGlfw glfw_url "examples/deps/" "glfw" "glfw-3.3.8"
    ["glfw-3.3.8/README.md"] fsDeps rfl (by decide) (by decide) (by decide) (by decide)
    (by decide) (by decide) (by decide) (by decide) (by decide) (by decide)).1
    (by decide)).2.1

/-- C2 amended witness: a normal non-empty archive ends with the `.zip`
removed. -/
theorem zip_cleanup_behavior_witness :
    (download_zip_and_extract netOkGlfw glfw_url "examples/deps/" "glfw" fsDeps).fs.isFile
      (("examples/deps/" ++ "glfw") ++ ".zip") = false :=
  (zip_cleanup_behavior netOkGlfw glfw_url "examples/deps/" "glfw" zipGlfw fsDeps
    rfl).1 (by decide) (by decide)

/-- C8 witness: `main` on a filesystem holding only the repository roots
proceeds to the fetch loops with both destination roots created. -/
theorem roots_created_before_fetch_witness :
    main netHttpErr fsRoots = processEntries netHttpErr test_deps_folder false test_deps_urls
      (processEntries netHttpErr example_deps_folder true example_deps_urls
        ⟨⟨"tests/deps" :: "examples/deps" :: fsRoots.dirs, fsRoots.files⟩, [], [], none⟩) :=
  (roots_created_before_fetch netHttpErr fsRoots (by decide) (by decide) (by decide)
    (by decide) (by decide) (by decide)).2.2

end FetchDeps
